import Mathlib

/-!
Verification of the DeepAgent query-planning core of `utec_agent_product`.

The development shallowly embeds the planner (`src/deep_agent/planner.py`), the
graph tool (`src/deep_agent/neo4j_tool.py`, with its Cypher queries interpreted
over an explicit list-of-products database model) and the executor wiring
(`src/vector/vector.py`).  Python strings are modelled as lists of character
codes (`List Nat`); `str.lower`, `str.strip` and the `re` patterns used by the
planner are embedded by a small backtracking regular-expression engine whose
alternative order mirrors CPython's leftmost / greedy / lazy matching.  Python
`float` prices are modelled as integers, and code points outside ASCII are left
unchanged by the lower-casing model, as they are for the pattern alphabet used
by the planner.  Run-time `TypeError`s are modelled by `Except`.
-/

/-! ### Character-code helpers (Python `str` model) -/

/-- Python `\s` on the ASCII range: space, tab, newline, CR, VT, FF. -/
def isWS (n : Nat) : Bool :=
  n == 32 || n == 9 || n == 10 || n == 13 || n == 11 || n == 12

/-- Python `\d` on the ASCII range. -/
def isDigitCode (n : Nat) : Bool := 48 ≤ n && n ≤ 57

/-- Python `.` (any character except a newline). -/
def isDot (n : Nat) : Bool := n != 10

/-- An ASCII upper-case letter. -/
def isUpperCode (n : Nat) : Bool := 65 ≤ n && n ≤ 90

/-- Python `str.lower`, modelled on the ASCII letters. -/
def lowerCode (n : Nat) : Nat := if 65 ≤ n && n ≤ 90 then n + 32 else n

/-- `query.lower()` over a list of character codes. -/
def pyLower (l : List Nat) : List Nat := l.map lowerCode

/-- The character codes of a Lean string literal. -/
def codes (s : String) : List Nat := s.data.map Char.toNat

/-- Back from character codes to a Lean string (used only for the
human-readable `steps` narrative of a plan). -/
def decode (l : List Nat) : String := String.mk (l.map Char.ofNat)

/-- Python `str.strip()`: drop whitespace from both ends. -/
def pyStrip (l : List Nat) : List Nat :=
  ((l.dropWhile isWS).reverse.dropWhile isWS).reverse

/-- `float(digits)` of a captured `\d+` group, modelled as the numeric value. -/
def natOfDigits (l : List Nat) : Nat := l.foldl (fun a d => a * 10 + (d - 48)) 0

/-! ### A small regular-expression engine

Just enough of Python `re` for the planner's patterns: literals, character
classes, concatenation, alternation, greedy `?`, greedy and lazy `+` of a
character class, and numbered capturing groups. -/

inductive RE : Type where
  | eps : RE
  | cls : (Nat → Bool) → RE
  | seq : RE → RE → RE
  | alt : RE → RE → RE
  | opt : RE → RE
  | plus : (Nat → Bool) → RE
  | plusLazy : (Nat → Bool) → RE
  | grp : Nat → RE → RE

/-- `[k, k-1, ..., 1]`: the candidate lengths of a greedy `+`, longest first. -/
def descRange : Nat → List Nat
  | 0 => []
  | k + 1 => (k + 1) :: descRange k

/-- `[1, 2, ..., k]`: the candidate lengths of a lazy `+?`, shortest first. -/
def ascRange (k : Nat) : List Nat := (List.range k).map (· + 1)

/-- Concat-map, kept local so its unfolding lemmas are under our control. -/
def catMap (g : α → List β) : List α → List β
  | [] => []
  | a :: t => g a ++ catMap g t

/-- One match outcome: the remaining input and the captured groups. -/
abbrev MRes := List (List Nat × List (Nat × List Nat))

/-- All ways a pattern can match a prefix of `s`, in CPython's backtracking
priority order (first element = the match `re` would return). -/
def mtch : RE → List Nat → MRes
  | RE.eps, s => [(s, [])]
  | RE.cls _, [] => []
  | RE.cls f, c :: rest => if f c then [(rest, [])] else []
  | RE.seq a b, s =>
      catMap (fun p => (mtch b p.1).map (fun q => (q.1, p.2 ++ q.2))) (mtch a s)
  | RE.alt a b, s => mtch a s ++ mtch b s
  | RE.opt a, s => mtch a s ++ [(s, [])]
  | RE.plus f, s => (descRange (s.takeWhile f).length).map (fun k => (s.drop k, []))
  | RE.plusLazy f, s => (ascRange (s.takeWhile f).length).map (fun k => (s.drop k, []))
  | RE.grp i a, s =>
      (mtch a s).map (fun p => (p.1, (i, s.take (s.length - p.1.length)) :: p.2))

/-- `re.search`: try each start position left to right; at the first position
with a match, return the captures of the highest-priority match. -/
def reSearch (r : RE) : List Nat → Option (List (Nat × List Nat))
  | [] => ((mtch r []).head?).map (fun p => p.2)
  | c :: rest =>
    match (mtch r (c :: rest)).head? with
    | some p => some p.2
    | none => reSearch r rest

/-- `match.group(i)`. -/
def capGet : List (Nat × List Nat) → Nat → Option (List Nat)
  | [], _ => none
  | (j, g) :: t, i => if j == i then some g else capGet t i

/-- The first pattern of a family that matches, as in the planner's
`for pattern in patterns: ... break` loops. -/
def firstSearch (ps : List RE) (s : List Nat) : Option (List (Nat × List Nat)) :=
  ps.findSome? (fun p => reSearch p s)

/-- A literal string pattern. -/
def lit (w : String) : RE :=
  (codes w).foldr (fun c r => RE.seq (RE.cls (fun n => n == c)) r) RE.eps

/-- A case-insensitive literal (for the `re.IGNORECASE` article pattern). -/
def litCI (w : String) : RE :=
  (codes w).foldr (fun c r => RE.seq (RE.cls (fun n => lowerCode n == lowerCode c)) r) RE.eps

/-- A two-character class such as `[ae]`. -/
def cls2 (a b : Nat) : RE := RE.cls (fun n => n == a || n == b)

/-- Concatenation of a pattern list. -/
def cat (l : List RE) : RE := l.foldr RE.seq RE.eps

/-- `\s+`. -/
def wsP : RE := RE.plus isWS

/-! ### The planner's pattern catalog (`DeepAgentPlanner`) -/

/-- `COMPARISON_PATTERNS` of `planner.py`. -/
def COMPARISON_PATTERNS : List RE :=
  [ cat [lit "compar", cls2 97 101, RE.opt (lit "r"), wsP,
         RE.grp 1 (RE.plusLazy isDot), wsP,
         RE.alt (lit "vs") (RE.alt (lit "versus") (RE.alt (lit "con") (lit "y"))), wsP,
         RE.grp 2 (RE.plus isDot)],
    cat [lit "diferencia", RE.opt (lit "s"), wsP, lit "entre", wsP,
         RE.grp 1 (RE.plusLazy isDot), wsP, lit "y", wsP, RE.grp 2 (RE.plus isDot)],
    cat [RE.alt (lit "cuál") (RE.alt (lit "cual") (lit "que")), wsP, lit "es", wsP,
         lit "mejor", wsP, RE.grp 1 (RE.plusLazy isDot), wsP, lit "o", wsP,
         RE.grp 2 (RE.plus isDot)] ]

/-- `SIMILARITY_PATTERNS` of `planner.py`. -/
def SIMILARITY_PATTERNS : List RE :=
  [ cat [lit "similar", RE.opt (lit "es"), wsP, lit "a", RE.opt (lit "l"), wsP,
         RE.grp 1 (RE.plus isDot)],
    cat [lit "parecido", wsP, lit "a", RE.opt (lit "l"), wsP, RE.grp 1 (RE.plus isDot)],
    cat [lit "alternativa", RE.opt (lit "s"), wsP, lit "a", RE.opt (lit "l"), wsP,
         RE.grp 1 (RE.plus isDot)],
    cat [lit "como", wsP, RE.grp 1 (RE.plus isDot), wsP, lit "pero"] ]

/-- `PRICE_PATTERNS` of `planner.py`. -/
def PRICE_PATTERNS : List RE :=
  [ cat [lit "más", wsP, lit "barato", wsP, lit "que", wsP, RE.grp 1 (RE.plus isDot)],
    cat [lit "menos", wsP, lit "caro", wsP, lit "que", wsP, RE.grp 1 (RE.plus isDot)],
    cat [lit "económico", wsP, RE.alt (lit "que") (lit "a"), wsP, RE.grp 1 (RE.plus isDot)],
    cat [lit "mejor", wsP, lit "precio", wsP, lit "que", wsP, RE.grp 1 (RE.plus isDot)] ]

/-- `RECOMMENDATION_PATTERNS` of `planner.py`. -/
def RECOMMENDATION_PATTERNS : List RE :=
  [ cat [lit "mejor", wsP, lit "para", wsP, RE.grp 1 (RE.plus isDot)],
    cat [lit "recomiend", cls2 97 111, wsP, lit "para", wsP, RE.grp 1 (RE.plus isDot)],
    cat [RE.alt (lit "lo") (lit "el"), wsP, lit "mejor", wsP, lit "para", wsP,
         RE.grp 1 (RE.plus isDot)],
    cat [lit "ideal", wsP, lit "para", wsP, RE.grp 1 (RE.plus isDot)] ]

/-- `talla\s+(\d+(?:\.\d+)?)` — the size scan. -/
def sizeRE : RE :=
  cat [lit "talla", wsP,
       RE.grp 1 (cat [RE.plus isDigitCode, RE.opt (cat [lit ".", RE.plus isDigitCode])])]

/-- `(?:menor|menos|hasta)\s+(?:de\s+)?(?:USD\s+)?(\d+)` — the price-ceiling
scan.  `USD` is written upper-case in the source and is matched, as there,
case-sensitively against the lower-cased query. -/
def priceRE : RE :=
  cat [RE.alt (lit "menor") (RE.alt (lit "menos") (lit "hasta")), wsP,
       RE.opt (cat [lit "de", wsP]), RE.opt (cat [lit "USD", wsP]),
       RE.grp 1 (RE.plus isDigitCode)]

/-- `^(el|la|los|las|un|una|unos|unas)\s+`, used with `re.IGNORECASE`. -/
def articleRE : RE :=
  RE.seq
    (RE.grp 1 (RE.alt (litCI "el") (RE.alt (litCI "la") (RE.alt (litCI "los")
      (RE.alt (litCI "las") (RE.alt (litCI "un") (RE.alt (litCI "una")
      (RE.alt (litCI "unos") (litCI "unas")))))))))
    wsP

/-- `re.sub(article, '', product)`: the pattern is anchored at the start, so at
most the matched prefix is removed. -/
def stripArticle (p : List Nat) : List Nat :=
  match (mtch articleRE p).head? with
  | some q => q.1
  | none => p

/-! ### `DeepAgentPlanner.classify_query` / `should_activate_deep_agent` -/

/-- Whether one pattern of the family matches the (already lowered) query. -/
def anyMatch (ps : List RE) (s : List Nat) : Bool :=
  ps.any (fun p => (reSearch p s).isSome)

/-- `DeepAgentPlanner.classify_query`. -/
def classify_query (query : String) : String :=
  if anyMatch COMPARISON_PATTERNS (pyLower (codes query)) then "comparison"
  else if anyMatch SIMILARITY_PATTERNS (pyLower (codes query)) then "similarity"
  else if anyMatch PRICE_PATTERNS (pyLower (codes query)) then "price_comparison"
  else if anyMatch RECOMMENDATION_PATTERNS (pyLower (codes query)) then "recommendation"
  else "simple"

/-- `DeepAgentPlanner.should_activate_deep_agent`. -/
def should_activate_deep_agent (query : String) : Bool :=
  anyMatch (COMPARISON_PATTERNS ++ SIMILARITY_PATTERNS ++ PRICE_PATTERNS ++
            RECOMMENDATION_PATTERNS) (pyLower (codes query))

/-! ### `DeepAgentPlanner.extract_parameters` -/

/-- The parameter dictionary: one optional field per key the extractor can set. -/
structure Params where
  product1 : Option (List Nat) := none
  product2 : Option (List Nat) := none
  reference_product : Option (List Nat) := none
  use_case : Option (List Nat) := none
  size : Option (List Nat) := none
  max_price : Option Nat := none
deriving DecidableEq

/-- `DeepAgentPlanner.extract_parameters`. -/
def extract_parameters (query : String) (query_type : String) : Params :=
  let ql := pyLower (codes query)
  let params : Params := {}
  let params :=
    if query_type = "comparison" then
      match firstSearch COMPARISON_PATTERNS ql with
      | some cs =>
        { params with product1 := (capGet cs 1).map pyStrip,
                      product2 := (capGet cs 2).map pyStrip }
      | none => params
    else if query_type = "similarity" ∨ query_type = "price_comparison" then
      match firstSearch (if query_type = "similarity" then SIMILARITY_PATTERNS
                         else PRICE_PATTERNS) ql with
      | some cs =>
        { params with reference_product :=
            (capGet cs 1).map (fun g => stripArticle (pyStrip g)) }
      | none => params
    else if query_type = "recommendation" then
      match firstSearch RECOMMENDATION_PATTERNS ql with
      | some cs => { params with use_case := (capGet cs 1).map pyStrip }
      | none => params
    else params
  let params :=
    match reSearch sizeRE ql with
    | some cs => { params with size := capGet cs 1 }
    | none => params
  match reSearch priceRE ql with
  | some cs => { params with max_price := (capGet cs 1).map natOfDigits }
  | none => params

/-! ### `DeepAgentPlanner.create_plan` -/

/-- The `QueryPlan` dataclass. -/
structure QueryPlan where
  steps : List String
  use_neo4j : Bool
  use_qdrant : Bool
  query_type : String
  extracted_params : Params
deriving DecidableEq

/-- `params.get(key, '')` rendered into a step string. -/
def paramText (o : Option (List Nat)) : String := decode (o.getD [])

/-- `DeepAgentPlanner.create_plan`. -/
def create_plan (query : String) : QueryPlan :=
  let query_type := classify_query query
  let params := extract_parameters query query_type
  if query_type = "simple" then
    { steps := ["1. Buscar productos relevantes en Qdrant (filtro: stock disponible)",
                "2. Retornar top resultados"],
      use_neo4j := false, use_qdrant := true,
      query_type := query_type, extracted_params := params }
  else if query_type = "comparison" then
    { steps := ["1. Buscar productos '" ++ paramText params.product1 ++ "' y '" ++
                  paramText params.product2 ++ "' en Neo4j",
                "2. Obtener atributos comparables (precio, categoría, características)",
                "3. Generar comparativa estructurada",
                "4. Enriquecer con información adicional de Qdrant si es necesario"],
      use_neo4j := true, use_qdrant := true,
      query_type := query_type, extracted_params := params }
  else if query_type = "similarity" then
    { steps := ["1. Identificar producto de referencia: '" ++
                  paramText params.reference_product ++ "'",
                "2. Consultar Neo4j: productos con relación SIMILAR_A",
                "3. Filtrar por stock disponible",
                "4. Ordenar por relevancia (misma categoría, precio similar)"],
      use_neo4j := true, use_qdrant := false,
      query_type := query_type, extracted_params := params }
  else if query_type = "price_comparison" then
    { steps := ["1. Identificar producto de referencia: '" ++
                  paramText params.reference_product ++ "'",
                "2. Consultar Neo4j: productos con relación MAS_BARATO_QUE",
                "3. Filtrar por stock disponible y talla si aplica",
                "4. Retornar alternativas más económicas"],
      use_neo4j := true, use_qdrant := false,
      query_type := query_type, extracted_params := params }
  else if query_type = "recommendation" then
    { steps := ["1. Analizar caso de uso: '" ++ paramText params.use_case ++ "'",
                "2. Buscar en Neo4j productos por categoría optimizada",
                "3. Complementar con búsqueda semántica en Qdrant",
                "4. Consolidar recomendaciones basadas en atributos"],
      use_neo4j := true, use_qdrant := true,
      query_type := query_type, extracted_params := params }
  else
    { steps := [], use_neo4j := false, use_qdrant := false,
      query_type := query_type, extracted_params := params }

/-! ### `DeepAgentPlanner.combine_results` -/

/-- A product record as both backends hand it to the combiner/formatter:
`id` is `none` when the key is absent (an empty string is also possible),
`stock_status` is `none` when that key is absent. -/
structure Rec where
  id : Option String
  name : String
  price : Int
  stock_status : Option String
deriving DecidableEq

/-- Python truthiness of `r.get('id')`: `None` and `''` are falsy. -/
def idOk : Option String → Bool
  | none => false
  | some s => !(s == "")

/-- One iteration of the combiner's loop over `(seen, unique)`. -/
def combineStep (st : List String × List Rec) (r : Rec) : List String × List Rec :=
  match r.id with
  | some s => if s ≠ "" ∧ s ∉ st.1 then (s :: st.1, st.2 ++ [r]) else st
  | none => st

/-- `DeepAgentPlanner.combine_results`: concatenate, keep the first record per
truthy id (records with falsy id are skipped by the `if id and ...` guard),
cap at 10. -/
def combine_results (neo4j_results qdrant_results : List Rec) : List Rec :=
  (((neo4j_results ++ qdrant_results).foldl combineStep ([], [])).2).take 10

/-- Structural-recursion restatement of the dedup loop, used by the lemmas. -/
def dedupeFirst : List Rec → List String → List Rec
  | [], _ => []
  | r :: rest, seen =>
    match r.id with
    | some s =>
      if s ≠ "" ∧ s ∉ seen then r :: dedupeFirst rest (s :: seen)
      else dedupeFirst rest seen
    | none => dedupeFirst rest seen

/-! ### `DeepAgentPlanner.format_results` -/

/-- The fields shown for one side of the comparison template. -/
structure PView where
  name : String
  price : Int
  categories : List String
  stock_status : String
deriving DecidableEq

/-- The structured comparison dictionary built by `compare_products`. -/
structure CompView where
  product1 : PView
  product2 : PView
  price_difference : Int
  cheaper : String
deriving DecidableEq

/-- What `compare_products` returns: the error dictionary or the structured one. -/
inductive CompareOut : Type where
  | err : String → CompareOut
  | ok : CompView → CompareOut
deriving DecidableEq

/-- The run-time values `format_results` is given: a list of records, an error
dictionary, or a structured comparison dictionary. -/
inductive FmtInput : Type where
  | recs : List Rec → FmtInput
  | err : String → FmtInput
  | comp : CompView → FmtInput
deriving DecidableEq

/-- One line of the numbered listing (1-based index). -/
def formatRecLine (i : Nat) (r : Rec) : String :=
  toString i ++ ". **" ++ r.name ++ "** - USD " ++ toString r.price ++
  " (Stock: " ++ r.stock_status.getD "instock" ++ ")"

/-- One product block of the comparison template. -/
def productBlock (p : PView) : String :=
  "**" ++ p.name ++ "**\n- Precio: USD " ++ toString p.price ++
  "\n- Categorías: " ++ String.intercalate ", " p.categories ++
  "\n- Stock: " ++ p.stock_status ++ "\n\n"

/-- The comparison template of `format_results`. -/
def comparisonText (c : CompView) : String :=
  "**Comparación de productos:**\n\n" ++ productBlock c.product1 ++
  productBlock c.product2 ++
  "**Diferencia de precio:** USD " ++ toString c.price_difference ++
  "\n**Más económico:** " ++ c.cheaper

/-- `DeepAgentPlanner.format_results`.  The branches mirror the Python order:
falsiness check, `'error' in results`, the comparison-template branch, then the
generic numbered list — which slices `results[:10]`, an operation that raises
`TypeError` when the value is still the comparison dictionary. -/
def format_results (results : FmtInput) (query_type : String) : Except String String :=
  match results with
  | FmtInput.recs [] => Except.ok "No se encontraron productos que cumplan los criterios."
  | FmtInput.err m => Except.ok m
  | FmtInput.comp c =>
    if query_type = "comparison" then Except.ok (comparisonText c)
    else Except.error "TypeError: unhashable type: 'slice'"
  | FmtInput.recs rs =>
    Except.ok (String.intercalate "\n"
      ((rs.take 10).enum.map (fun p => formatRecLine (p.1 + 1) p.2)))

/-! ### `DeepAgentPlanner.execute_plan` -/

/-- What the wired graph tool (`neo4j_executor` in `vector/vector.py`) returns:
a list of records, or — for comparison plans — the comparison dictionary. -/
inductive GraphOut : Type where
  | recs : List Rec → GraphOut
  | comp : CompareOut → GraphOut
deriving DecidableEq

/-- Lift a `CompareOut` dictionary to a formatter input. -/
def compareToFmt : CompareOut → FmtInput
  | CompareOut.err m => FmtInput.err m
  | CompareOut.ok c => FmtInput.comp c

/-- `DeepAgentPlanner.execute_plan`.  `neo4j_result + qdrant_result` inside
`combine_results` is list concatenation in Python, which raises `TypeError`
when the graph branch produced a dictionary rather than a list. -/
def execute_plan (plan : QueryPlan) (neo4j_tool : Option (QueryPlan → GraphOut))
    (qdrant_tool : Option (QueryPlan → List Rec)) : Except String String :=
  let neo4j_result : GraphOut :=
    match neo4j_tool with
    | some f => if plan.use_neo4j then f plan else GraphOut.recs []
    | none => GraphOut.recs []
  let qdrant_result : List Rec :=
    match qdrant_tool with
    | some f => if plan.use_qdrant then f plan else []
    | none => []
  match neo4j_result with
  | GraphOut.recs l =>
    format_results (FmtInput.recs (combine_results l qdrant_result)) plan.query_type
  | GraphOut.comp _ =>
    Except.error "TypeError: unsupported operand type(s) for +: 'dict' and 'list'"

/-! ### The graph backend (`Neo4jTool`)

The Cypher queries of `neo4j_tool.py` are interpreted over an explicit
database: a list of products, each carrying the categories it `PERTENECE_A`.
The unspecified backend ordering of an unsorted `MATCH` is the list order. -/

/-- One `Producto` node with its outgoing `PERTENECE_A` edges. -/
structure Product where
  id : String
  name : String
  price : Int
  stock_status : String
  categories : List String
deriving DecidableEq

/-- Boolean prefix test on code lists. -/
def isPre : List Nat → List Nat → Bool
  | [], _ => true
  | _ :: _, [] => false
  | x :: xs, y :: ys => x == y && isPre xs ys

/-- Cypher `CONTAINS` on code lists. -/
def containsCodes : List Nat → List Nat → Bool
  | [], n => n.isEmpty
  | x :: t, n => isPre n (x :: t) || containsCodes t n

/-- `Neo4jTool.find_product_by_name`: case-insensitive substring match on the
name, restricted to in-stock products, first match wins (`LIMIT 1`). -/
def find_product_by_name (db : List Product) (product_name : String) : Option Product :=
  (db.filter (fun p =>
    containsCodes (pyLower (codes p.name)) (pyLower (codes product_name)) &&
    p.stock_status == "instock")).head?

/-- Price order on products, for the Cypher `ORDER BY p.price ASC`. -/
def priceLE (a b : Product) : Prop := a.price ≤ b.price

instance : DecidableRel priceLE := fun a b => Int.decLe a.price b.price

instance : IsTotal Product priceLE := ⟨fun a b => Int.le_total a.price b.price⟩

instance : IsTrans Product priceLE := ⟨fun _ _ _ h h' => Int.le_trans h h'⟩

/-- `Neo4jTool.find_cheaper_alternatives`: resolve the reference product; if it
is missing return `[]`; otherwise the in-stock products strictly cheaper than
the reference, ascending by price, capped at `limit`. -/
def find_cheaper_alternatives (db : List Product) (product_name : String)
    (limit : Nat) : List Product :=
  match find_product_by_name db product_name with
  | none => []
  | some reference =>
    (List.insertionSort priceLE
      (db.filter (fun p => p.price < reference.price && p.stock_status == "instock"))).take limit

/-- `Neo4jTool.compare_products`: resolve both names; if either is missing
return the error dictionary naming both inputs; otherwise the structured
comparison with the absolute price difference and the cheaper name. -/
def compare_products (db : List Product) (product1_name product2_name : String) :
    CompareOut :=
  match find_product_by_name db product1_name, find_product_by_name db product2_name with
  | some p1, some p2 =>
    CompareOut.ok
      { product1 := { name := p1.name, price := p1.price, categories := p1.categories,
                      stock_status := p1.stock_status },
        product2 := { name := p2.name, price := p2.price, categories := p2.categories,
                      stock_status := p2.stock_status },
        price_difference := |p1.price - p2.price|,
        cheaper := if p1.price < p2.price then p1.name else p2.name }
  | _, _ =>
    CompareOut.err ("No se encontraron uno o ambos productos: " ++ product1_name ++
      ", " ++ product2_name)

/-! ### Concrete fixtures used by counterexamples and witnesses -/

/-- Two in-stock products with the same price (tie-break fixture). -/
def exTieDB : List Product :=
  [⟨"1", "alpha", 10, "instock", []⟩, ⟨"2", "beta", 10, "instock", []⟩]

/-- A small catalog with distinct prices. -/
def exDB : List Product :=
  [⟨"1", "alpha", 100, "instock", ["Pulseras"]⟩,
   ⟨"2", "beta", 80, "instock", ["Calzado"]⟩,
   ⟨"3", "gamma", 50, "instock", []⟩,
   ⟨"4", "delta", 60, "outofstock", []⟩,
   ⟨"5", "epsilon", 70, "instock", []⟩]

/-- Graph-side records for the combiner example. -/
def exG : List Rec :=
  [⟨some "1", "g1", 10, some "instock"⟩, ⟨some "2", "g2", 20, some "instock"⟩]

/-- Vector-side records for the combiner example (`"2"` duplicates a graph id). -/
def exV : List Rec :=
  [⟨some "2", "v2", 21, some "instock"⟩, ⟨some "3", "v3", 30, some "instock"⟩]

/-- A record whose `id` key is absent. -/
def exNoId : Rec := ⟨none, "anon", 5, none⟩

/-- A structured comparison value. -/
def exCompView : CompView :=
  ⟨⟨"alpha", 100, ["Pulseras"], "instock"⟩, ⟨"beta", 80, ["Calzado"], "instock"⟩,
   20, "beta"⟩

/-! ## Helper lemmas -/

/-- The generic list branch of the formatter always returns a string. -/
theorem format_recs_isOk (rs : List Rec) (query_type : String) :
    ∃ s, format_results (FmtInput.recs rs) query_type = Except.ok s := by
  cases rs with
  | nil => exact ⟨_, rfl⟩
  | cons r t => exact ⟨_, rfl⟩

/-- `classify_query` only ever returns one of the five intents. -/
theorem classify_query_cases (q : String) :
    classify_query q = "comparison" ∨ classify_query q = "similarity" ∨
    classify_query q = "price_comparison" ∨ classify_query q = "recommendation" ∨
    classify_query q = "simple" := by
  unfold classify_query
  split
  · exact Or.inl rfl
  · split
    · exact Or.inr (Or.inl rfl)
    · split
      · exact Or.inr (Or.inr (Or.inl rfl))
      · split
        · exact Or.inr (Or.inr (Or.inr (Or.inl rfl)))
        · exact Or.inr (Or.inr (Or.inr (Or.inr rfl)))

/-! ## Claims -/

/-- Claim C5: `should_activate_deep_agent(q)` is true exactly when
`classify_query(q)` is not `simple` — both scan the same pattern catalog in
the same order over the same lower-cased query, so the two decisions agree on
every query. -/
theorem should_activate_iff_not_simple (q : String) :
    should_activate_deep_agent q = true ↔ classify_query q ≠ "simple" := by
  unfold should_activate_deep_agent classify_query anyMatch
  simp only [List.any_append, Bool.or_eq_true]
  by_cases h1 : COMPARISON_PATTERNS.any
      (fun p => (reSearch p (pyLower (codes q))).isSome) = true <;>
  by_cases h2 : SIMILARITY_PATTERNS.any
      (fun p => (reSearch p (pyLower (codes q))).isSome) = true <;>
  by_cases h3 : PRICE_PATTERNS.any
      (fun p => (reSearch p (pyLower (codes q))).isSome) = true <;>
  by_cases h4 : RECOMMENDATION_PATTERNS.any
      (fun p => (reSearch p (pyLower (codes q))).isSome) = true <;>
  simp [h1, h2, h3, h4]

/-- Claim C5 witness: a similarity query activates deep reasoning and is not
classified `simple`. -/
theorem should_activate_iff_not_simple_witness :
    should_activate_deep_agent "similar a la pulsera" = true :=
  (should_activate_iff_not_simple "similar a la pulsera").mpr (by decide)

/-- Claim C4: a plan's backend flags are determined by its intent —
`use_neo4j` is off exactly for `simple`, and `use_qdrant` is on exactly for
`simple`, `comparison` and `recommendation` (off for `similarity` and
`price_comparison`). -/
theorem create_plan_flags_invariant (q : String) :
    ((create_plan q).query_type = "simple" ↔ (create_plan q).use_neo4j = false) ∧
    ((create_plan q).use_qdrant = true ↔
      ((create_plan q).query_type = "simple" ∨ (create_plan q).query_type = "comparison" ∨
       (create_plan q).query_type = "recommendation")) ∧
    ((create_plan q).use_qdrant = false ↔
      ((create_plan q).query_type = "similarity" ∨
       (create_plan q).query_type = "price_comparison")) := by
  rcases classify_query_cases q with h | h | h | h | h <;>
    simp [create_plan, h]

/-- Claim C4 witness: for a concrete comparison query both backends are on. -/
theorem create_plan_flags_invariant_witness :
    (create_plan "comparar alpha vs beta").use_qdrant = true :=
  (create_plan_flags_invariant "comparar alpha vs beta").2.1.mpr
    (Or.inr (Or.inl (by decide)))

/-- Claim C3 counterexample: for the query `"talla 42"` the extractor invoked
with intent `simple` still attaches the `size` key, so the parameter set is
not empty. -/
theorem extract_parameters_simple_size_nonempty :
    (extract_parameters "talla 42" "simple").size = some [52, 50] ∧
    extract_parameters "talla 42" "simple" ≠ ({} : Params) := by
  constructor
  · rfl
  · decide

/-- Claim C3 (amended): for intent `simple` the extractor never sets any of
the intent-specific keys (`product1`, `product2`, `reference_product`,
`use_case`); only the cross-cutting `size` and `max_price` scans can fire, so
the parameter set is empty exactly when neither scan produced a value. -/
theorem extract_parameters_simple_no_intent_keys (q : String) :
    (extract_parameters q "simple").product1 = none ∧
    (extract_parameters q "simple").product2 = none ∧
    (extract_parameters q "simple").reference_product = none ∧
    (extract_parameters q "simple").use_case = none ∧
    ((extract_parameters q "simple").size = none →
      (extract_parameters q "simple").max_price = none →
      extract_parameters q "simple" = ({} : Params)) := by
  unfold extract_parameters
  cases h1 : reSearch sizeRE (pyLower (codes q)) <;>
    cases h2 : reSearch priceRE (pyLower (codes q)) <;>
      simp_all

/-- Claim C3 witness: a query with neither a size nor a price phrase yields
the empty parameter set under intent `simple`. -/
theorem extract_parameters_simple_no_intent_keys_witness :
    extract_parameters "pulseras de cuero" "simple" = ({} : Params) :=
  (extract_parameters_simple_no_intent_keys "pulseras de cuero").2.2.2.2
    (by rfl) (by rfl)

/-- Claim C2 counterexample: with two resolvable products of equal price, the
`cheaper` field names the *second* product, not the first as claimed — the
source tie-break `p1.price < p2.price` falls to the `else` branch on equality. -/
theorem compare_products_equal_price_cheaper_second :
    find_product_by_name exTieDB "alpha" = some ⟨"1", "alpha", 10, "instock", []⟩ ∧
    find_product_by_name exTieDB "beta" = some ⟨"2", "beta", 10, "instock", []⟩ ∧
    compare_products exTieDB "alpha" "beta" =
      CompareOut.ok ⟨⟨"alpha", 10, [], "instock"⟩, ⟨"beta", 10, [], "instock"⟩, 0, "beta"⟩ ∧
    ("beta" : String) ≠ "alpha" :=
  ⟨rfl, rfl, rfl, by decide⟩

/-- Claim C2 (amended): when both names resolve, `compare_products` returns
the structured variant with `price_difference = |price1 - price2|` (hence
non-negative) and `cheaper` the strictly lower-priced product's name; on a
price tie the *second* product's name wins. -/
theorem compare_products_spec (db : List Product) (n1 n2 : String) (p1 p2 : Product)
    (h1 : find_product_by_name db n1 = some p1)
    (h2 : find_product_by_name db n2 = some p2) :
    ∃ c, compare_products db n1 n2 = CompareOut.ok c ∧
      c.price_difference = |p1.price - p2.price| ∧ 0 ≤ c.price_difference ∧
      (p1.price < p2.price → c.cheaper = p1.name) ∧
      (p2.price < p1.price → c.cheaper = p2.name) ∧
      (p1.price = p2.price → c.cheaper = p2.name) := by
  unfold compare_products
  rw [h1, h2]
  refine ⟨_, rfl, rfl, abs_nonneg _, ?_, ?_, ?_⟩
  · intro h
    simp [h]
  · intro h
    simp [if_neg (not_lt.mpr h.le)]
  · intro h
    simp [if_neg (not_lt.mpr h.ge)]

/-- Claim C2 witness: prices 100 and 80 give difference 20 and `cheaper` the
80-priced product. -/
theorem compare_products_spec_witness :
    ∃ c, compare_products exDB "alpha" "beta" = CompareOut.ok c ∧
      c.price_difference = |(100 : Int) - 80| ∧ (0 : Int) ≤ c.price_difference ∧
      ((100 : Int) < 80 → c.cheaper = "alpha") ∧
      ((80 : Int) < 100 → c.cheaper = "beta") ∧
      ((100 : Int) = 80 → c.cheaper = "beta") :=
  compare_products_spec exDB "alpha" "beta"
    ⟨"1", "alpha", 100, "instock", ["Pulseras"]⟩
    ⟨"2", "beta", 80, "instock", ["Calzado"]⟩ rfl rfl

/-- Claim C8 counterexample: a structured comparison value formatted under a
non-comparison intent falls through to the generic branch, where slicing the
dictionary (`results[:10]`) raises a `TypeError` — the formatter does not
return a string for every input value and intent. -/
theorem format_results_comparison_value_general_error :
    format_results (FmtInput.comp exCompView) "general" =
      Except.error "TypeError: unhashable type: 'slice'" := rfl

/-- Claim C8 (amended): the formatter returns a string on every record list
(the empty list maps exactly to the fixed no-results message, for every
intent), on every error value (its message, verbatim), and on a structured
comparison value under the `comparison` intent; but a structured comparison
value under any other intent raises a `TypeError` in the generic list branch. -/
theorem format_results_spec :
    (∀ query_type : String, format_results (FmtInput.recs []) query_type =
      Except.ok "No se encontraron productos que cumplan los criterios.") ∧
    (∀ (rs : List Rec) (query_type : String),
      ∃ s, format_results (FmtInput.recs rs) query_type = Except.ok s) ∧
    (∀ (m query_type : String), format_results (FmtInput.err m) query_type = Except.ok m) ∧
    (∀ c : CompView, format_results (FmtInput.comp c) "comparison" =
      Except.ok (comparisonText c)) ∧
    (∀ (c : CompView) (query_type : String), query_type ≠ "comparison" →
      format_results (FmtInput.comp c) query_type =
        Except.error "TypeError: unhashable type: 'slice'") := by
  refine ⟨fun _ => rfl, format_recs_isOk, fun _ _ => rfl, fun c => rfl, fun c qt h => ?_⟩
  simp [format_results, h]

/-- Claim C8 witness: the error branch of the last conjunct at a concrete
intent. -/
theorem format_results_spec_witness :
    format_results (FmtInput.comp exCompView) "similarity" =
      Except.error "TypeError: unhashable type: 'slice'" :=
  format_results_spec.2.2.2.2 exCompView "similarity" (by decide)

/-- Claim C1: for a comparison plan the executor does *not* bypass the
combiner — `execute_plan` feeds the graph branch's comparison dictionary into
`combine_results`, where Python's `dict + list` raises a `TypeError`, so the
comparison value is never rendered (the dictionary branches of
`format_results` are unreachable through `execute_plan`). -/
theorem execute_plan_comparison_type_error :
    execute_plan (create_plan "comparar alpha vs beta")
      (some (fun pl => GraphOut.comp (compare_products exDB
        (decode (pl.extracted_params.product1.getD []))
        (decode (pl.extracted_params.product2.getD [])))))
      (some (fun _ => [])) =
    Except.error "TypeError: unsupported operand type(s) for +: 'dict' and 'list'" := rfl

/-- Claim C9 counterexample: a comparison plan whose vector port is absent
does not produce a formatted answer — the graph branch's comparison value
still crashes in the combiner, so absence of a port does not guarantee a
formatted answer for every plan. -/
theorem execute_plan_vector_absent_comparison_error :
    execute_plan (create_plan "comparar alpha vs beta")
      (some (fun _ => GraphOut.comp (CompareOut.err "x"))) none =
    Except.error "TypeError: unsupported operand type(s) for +: 'dict' and 'list'" := rfl

/-- Claim C9 (amended): an absent port is treated exactly as a tool returning
the empty list, and never by itself raises an error: with the graph port
absent the pipeline always produces a formatted answer, and with the vector
port absent it produces one whenever the graph branch yields a record list —
but a comparison dictionary from the graph branch still crashes in the
combiner regardless of the vector port (see C1). -/
theorem execute_plan_port_absent_spec (plan : QueryPlan)
    (nt : Option (QueryPlan → GraphOut)) (qt : Option (QueryPlan → List Rec)) :
    (∃ s, execute_plan plan none qt = Except.ok s) ∧
    (execute_plan plan none qt =
      execute_plan plan (some (fun _ => GraphOut.recs [])) qt) ∧
    (execute_plan plan nt none =
      execute_plan plan nt (some (fun _ => []))) ∧
    (∀ (f : QueryPlan → GraphOut) (l : List Rec), f plan = GraphOut.recs l →
      ∃ s, execute_plan plan (some f) none = Except.ok s) := by
  refine ⟨?_, ?_, ?_, ?_⟩
  · exact format_recs_isOk _ _
  · simp only [execute_plan]
    cases plan.use_neo4j <;> rfl
  · simp only [execute_plan]
    cases nt with
    | none => cases plan.use_qdrant <;> rfl
    | some f => cases plan.use_qdrant <;> rfl
  · intro f l hf
    simp only [execute_plan]
    cases hn : plan.use_neo4j
    · exact format_recs_isOk _ _
    · simp only [hf]
      exact format_recs_isOk _ _

/-- Claim C9 witness: a similarity plan with the vector port absent and a
graph tool returning a record list produces a formatted answer. -/
theorem execute_plan_port_absent_spec_witness :
    ∃ s, execute_plan (create_plan "similar a la pulsera")
      (some (fun _ => GraphOut.recs exG)) none = Except.ok s :=
  (execute_plan_port_absent_spec (create_plan "similar a la pulsera")
      (some (fun _ => GraphOut.recs exG)) none).2.2.2
    (fun _ => GraphOut.recs exG) exG rfl

/-- Claim C7: `find_cheaper_alternatives` returns `[]` when the name does not
resolve (a normal outcome, not an error); otherwise its output is capped at
`limit` and consists only of in-stock catalog products strictly cheaper than
the reference, in ascending price order. -/
theorem find_cheaper_alternatives_spec (db : List Product) (name : String) (limit : Nat) :
    (find_product_by_name db name = none →
      find_cheaper_alternatives db name limit = []) ∧
    (∀ reference, find_product_by_name db name = some reference →
      (find_cheaper_alternatives db name limit).length ≤ limit ∧
      (∀ p ∈ find_cheaper_alternatives db name limit,
        p ∈ db ∧ p.price < reference.price ∧ p.stock_status = "instock") ∧
      (find_cheaper_alternatives db name limit).Pairwise priceLE) := by
  constructor
  · intro h
    unfold find_cheaper_alternatives
    rw [h]
  · intro reference h
    unfold find_cheaper_alternatives
    rw [h]
    refine ⟨List.length_take_le _ _, ?_, ?_⟩
    · intro p hp
      have hp' := List.mem_of_mem_take hp
      have hp2 := (List.perm_insertionSort priceLE _).mem_iff.mp hp'
      have hp3 := List.mem_filter.mp hp2
      refine ⟨hp3.1, ?_, ?_⟩
      · have := hp3.2
        simp only [Bool.and_eq_true, decide_eq_true_eq, beq_iff_eq] at this
        exact this.1
      · have := hp3.2
        simp only [Bool.and_eq_true, decide_eq_true_eq, beq_iff_eq] at this
        exact this.2
    · exact List.Pairwise.sublist (List.take_sublist _ _)
        (List.sorted_insertionSort priceLE _)

/-- Claim C7 witness: for the small catalog, products cheaper than `alpha`
come back ascending by price with the out-of-stock one excluded. -/
theorem find_cheaper_alternatives_spec_witness :
    find_cheaper_alternatives exDB "alpha" 5 =
      [⟨"3", "gamma", 50, "instock", []⟩, ⟨"5", "epsilon", 70, "instock", []⟩,
       ⟨"2", "beta", 80, "instock", ["Calzado"]⟩] ∧
    (find_cheaper_alternatives exDB "alpha" 5).length ≤ 5 :=
  ⟨rfl, ((find_cheaper_alternatives_spec exDB "alpha" 5).2
    ⟨"1", "alpha", 100, "instock", ["Pulseras"]⟩ rfl).1⟩

/-- The combiner's fold over `(seen, unique)` accumulates exactly
`dedupeFirst`. -/
theorem foldl_combineStep (l : List Rec) (seen : List String) (acc : List Rec) :
    (l.foldl combineStep (seen, acc)).2 = acc ++ dedupeFirst l seen := by
  induction l generalizing seen acc with
  | nil => simp [dedupeFirst]
  | cons r t ih =>
    simp only [List.foldl_cons, dedupeFirst]
    rcases hid : r.id with _ | s
    · simp [combineStep, hid, ih]
    · by_cases hs : s ≠ "" ∧ s ∉ seen
      · simp [combineStep, hid, hs, ih]
      · simp [combineStep, hid, hs, ih]

/-- The kept records form a sublist of the input (order preserved). -/
theorem dedupeFirst_sublist (l : List Rec) (seen : List String) :
    (dedupeFirst l seen).Sublist l := by
  induction l generalizing seen with
  | nil => simp [dedupeFirst]
  | cons r t ih =>
    rcases hid : r.id with _ | s
    · simp only [dedupeFirst, hid]
      exact (ih seen).cons r
    · by_cases hs : s ≠ "" ∧ s ∉ seen
      · simp only [dedupeFirst, hid]
        rw [if_pos hs]
        exact (ih (s :: seen)).cons₂ r
      · simp only [dedupeFirst, hid]
        rw [if_neg hs]
        exact (ih seen).cons r

/-- Every kept record has a truthy id. -/
theorem dedupeFirst_idOk (l : List Rec) (seen : List String) :
    ∀ r ∈ dedupeFirst l seen, idOk r.id = true := by
  induction l generalizing seen with
  | nil => simp [dedupeFirst]
  | cons r t ih =>
    intro r' hr'
    rcases hid : r.id with _ | s
    · simp only [dedupeFirst, hid] at hr'
      exact ih seen r' hr'
    · simp only [dedupeFirst, hid] at hr'
      by_cases hs : s ≠ "" ∧ s ∉ seen
      · rw [if_pos hs] at hr'
        rcases List.mem_cons.mp hr' with h | h
        · subst h
          simp [idOk, hid, hs.1]
        · exact ih (s :: seen) r' h
      · rw [if_neg hs] at hr'
        exact ih seen r' hr'

/-- A kept record's id is never one already in `seen`. -/
theorem dedupeFirst_not_seen (l : List Rec) (seen : List String) :
    ∀ r ∈ dedupeFirst l seen, ∀ s, r.id = some s → s ∉ seen := by
  induction l generalizing seen with
  | nil => simp [dedupeFirst]
  | cons r t ih =>
    intro r' hr' s hs
    rcases hid : r.id with _ | s0
    · simp only [dedupeFirst, hid] at hr'
      exact ih seen r' hr' s hs
    · simp only [dedupeFirst, hid] at hr'
      by_cases hc : s0 ≠ "" ∧ s0 ∉ seen
      · rw [if_pos hc] at hr'
        rcases List.mem_cons.mp hr' with h | h
        · subst h
          rw [hid] at hs
          cases hs
          exact hc.2
        · intro hmem
          exact ih (s0 :: seen) r' h s hs (List.mem_cons_of_mem _ hmem)
      · rw [if_neg hc] at hr'
        exact ih seen r' hr' s hs

/-- Kept records have pairwise distinct ids. -/
theorem dedupeFirst_pairwise (l : List Rec) (seen : List String) :
    (dedupeFirst l seen).Pairwise (fun a b => a.id ≠ b.id) := by
  induction l generalizing seen with
  | nil => simp [dedupeFirst]
  | cons r t ih =>
    rcases hid : r.id with _ | s
    · simp only [dedupeFirst, hid]
      exact ih seen
    · by_cases hs : s ≠ "" ∧ s ∉ seen
      · simp only [dedupeFirst, hid]
        rw [if_pos hs]
        refine List.Pairwise.cons ?_ (ih (s :: seen))
        intro b hb hbid
        have := dedupeFirst_not_seen t (s :: seen) b hb s (by rw [← hbid, hid])
        exact this (List.mem_cons_self _ _)
      · simp only [dedupeFirst, hid]
        rw [if_neg hs]
        exact ih seen

/-- First occurrence wins: a kept record is the first record of the input
carrying its id. -/
theorem dedupeFirst_first_wins (l : List Rec) (seen : List String) :
    ∀ r' ∈ dedupeFirst l seen, ∀ s, r'.id = some s → s ∉ seen →
      (l.filter (fun x => x.id == some s)).head? = some r' := by
  induction l generalizing seen with
  | nil => simp [dedupeFirst]
  | cons r t ih =>
    intro r' hr' s hs hseen
    rcases hid : r.id with _ | s0
    · simp only [dedupeFirst, hid] at hr'
      rw [List.filter_cons, if_neg (by simp [hid])]
      exact ih seen r' hr' s hs hseen
    · simp only [dedupeFirst, hid] at hr'
      by_cases hc : s0 ≠ "" ∧ s0 ∉ seen
      · rw [if_pos hc] at hr'
        rcases List.mem_cons.mp hr' with h | h
        · subst h
          rw [hid] at hs
          cases hs
          rw [List.filter_cons, if_pos (by simp [hid])]
          rfl
        · have hnotin := dedupeFirst_not_seen t (s0 :: seen) r' h s hs
          have hne : s ≠ s0 := fun e => hnotin (e ▸ List.mem_cons_self _ _)
          rw [List.filter_cons, if_neg (by simp [hid]; exact fun e => hne e.symm)]
          exact ih (s0 :: seen) r' h s hs hnotin
      · rw [if_neg hc] at hr'
        have hok := dedupeFirst_idOk t seen r' hr'
        have hsne : s ≠ "" := by
          rw [hs] at hok
          simpa [idOk] using hok
        have hne : s0 ≠ s := by
          intro e
          subst e
          exact hc ⟨hsne, hseen⟩
        rw [List.filter_cons, if_neg (by simp [hid]; exact hne)]
        exact ih seen r' hr' s hs hseen

/-- Claim C6 counterexample: a record whose `id` key is absent is dropped by
the combiner (the `if id and ...` guard skips it), not retained as claimed. -/
theorem combine_results_drops_missing_id :
    combine_results [exNoId] [] = [] ∧ ([] : List Rec) ≠ [exNoId] := by
  constructor
  · rfl
  · decide

/-- Claim C6 (amended): the combiner concatenates graph results before vector
results and emits a sublist of that concatenation (order within each source
preserved), truncated to at most 10 records; every emitted record has a
non-empty id, ids are pairwise distinct, and each emitted record is the
*first* record of the concatenation carrying its id (so graph entries beat
vector duplicates); records whose id is empty or absent are dropped, not
retained. -/
theorem combine_results_spec (g v : List Rec) :
    (combine_results g v).Sublist (g ++ v) ∧
    (combine_results g v).length ≤ 10 ∧
    (∀ r ∈ combine_results g v, idOk r.id = true) ∧
    (combine_results g v).Pairwise (fun a b => a.id ≠ b.id) ∧
    (∀ r ∈ combine_results g v, ∀ s, r.id = some s →
      ((g ++ v).filter (fun x => x.id == some s)).head? = some r) := by
  have hc : combine_results g v = (dedupeFirst (g ++ v) []).take 10 := by
    unfold combine_results
    rw [foldl_combineStep]
    simp
  rw [hc]
  refine ⟨(List.take_sublist _ _).trans (dedupeFirst_sublist _ _),
    List.length_take_le _ _,
    fun r hr => dedupeFirst_idOk _ _ r (List.mem_of_mem_take hr),
    List.Pairwise.sublist (List.take_sublist _ _) (dedupeFirst_pairwise _ _),
    fun r hr s hs => dedupeFirst_first_wins _ _ r (List.mem_of_mem_take hr) s hs
      (List.not_mem_nil s)⟩

/-- Claim C6 witness: the spec's example — ids `[1,2]` and `[2,3]` combine to
three records in order `[1,2,3]`, and the survivor with id 2 is the graph
record. -/
theorem combine_results_spec_witness :
    combine_results exG exV =
      [⟨some "1", "g1", 10, some "instock"⟩, ⟨some "2", "g2", 20, some "instock"⟩,
       ⟨some "3", "v3", 30, some "instock"⟩] ∧
    ((exG ++ exV).filter (fun x => x.id == some "2")).head? =
      some ⟨some "2", "g2", 20, some "instock"⟩ := by
  refine ⟨rfl, ?_⟩
  exact (combine_results_spec exG exV).2.2.2.2
    ⟨some "2", "g2", 20, some "instock"⟩ (by decide) "2" rfl

/-- The head of a list is a member. -/
theorem mem_of_head? {α : Type _} {l : List α} {a : α} (h : l.head? = some a) : a ∈ l := by
  cases l with
  | nil => cases h
  | cons b t =>
    injection h with h
    rw [← h]
    exact List.mem_cons_self _ _

/-- Membership in `catMap`. -/
theorem mem_catMap {α β : Type _} {g : α → List β} {b : β} :
    ∀ {l : List α}, b ∈ catMap g l ↔ ∃ a ∈ l, b ∈ g a := by
  intro l
  induction l with
  | nil => simp [catMap]
  | cons a t ih =>
    simp only [catMap, List.mem_append, ih, List.mem_cons]
    constructor
    · rintro (h | ⟨x, hx, hb⟩)
      · exact ⟨a, Or.inl rfl, h⟩
      · exact ⟨x, Or.inr hx, hb⟩
    · rintro ⟨x, hx | hx, hb⟩
      · subst hx
        exact Or.inl hb
      · exact Or.inr ⟨x, hx, hb⟩

/-- The head of a `catMap` is the head of the first non-empty block. -/
theorem catMap_head {α β : Type _} {g : α → List β} :
    ∀ (l : List α) (y : β), (catMap g l).head? = some y →
      ∃ a ∈ l, (g a).head? = some y := by
  intro l
  induction l with
  | nil => intro y h; cases h
  | cons a t ih =>
    intro y h
    simp only [catMap] at h
    cases hg : g a with
    | nil =>
      rw [hg] at h
      simp only [List.nil_append] at h
      obtain ⟨x, hx, hy⟩ := ih y h
      exact ⟨x, List.mem_cons_of_mem _ hx, hy⟩
    | cons b bs =>
      rw [hg] at h
      injection h with h
      exact ⟨a, List.mem_cons_self _ _, by rw [hg, ← h]; rfl⟩

/-- Matching only consumes from the front: the remainder is a drop of the
input. -/
theorem mtch_rem_drop (r : RE) : ∀ (s : List Nat) (p : List Nat × List (Nat × List Nat)),
    p ∈ mtch r s → ∃ k, p.1 = s.drop k := by
  induction r with
  | eps =>
    intro s p hp
    simp only [mtch, List.mem_singleton] at hp
    subst hp
    exact ⟨0, rfl⟩
  | cls f =>
    intro s p hp
    cases s with
    | nil => cases hp
    | cons c rest =>
      simp only [mtch] at hp
      by_cases h : f c
      · rw [if_pos h] at hp
        simp only [List.mem_singleton] at hp
        subst hp
        exact ⟨1, rfl⟩
      · rw [if_neg h] at hp
        cases hp
  | seq a b iha ihb =>
    intro s p hp
    simp only [mtch] at hp
    rw [mem_catMap] at hp
    obtain ⟨q, hq, hp2⟩ := hp
    rw [List.mem_map] at hp2
    obtain ⟨q2, hq2, rfl⟩ := hp2
    obtain ⟨k1, hk1⟩ := iha s q hq
    obtain ⟨k2, hk2⟩ := ihb q.1 q2 hq2
    refine ⟨k1 + k2, ?_⟩
    simp only [hk2, hk1, List.drop_drop]
  | alt a b iha ihb =>
    intro s p hp
    simp only [mtch, List.mem_append] at hp
    rcases hp with hp | hp
    · exact iha s p hp
    · exact ihb s p hp
  | opt a iha =>
    intro s p hp
    simp only [mtch, List.mem_append, List.mem_singleton] at hp
    rcases hp with hp | hp
    · exact iha s p hp
    · subst hp
      exact ⟨0, rfl⟩
  | plus f =>
    intro s p hp
    simp only [mtch, List.mem_map] at hp
    obtain ⟨k, _, rfl⟩ := hp
    exact ⟨k, rfl⟩
  | plusLazy f =>
    intro s p hp
    simp only [mtch, List.mem_map] at hp
    obtain ⟨k, _, rfl⟩ := hp
    exact ⟨k, rfl⟩
  | grp i a iha =>
    intro s p hp
    simp only [mtch, List.mem_map] at hp
    obtain ⟨q, hq, rfl⟩ := hp
    exact iha s q hq

/-- Every character of every captured group is a character of the input. -/
theorem mtch_caps_mem (r : RE) : ∀ (s : List Nat) (p : List Nat × List (Nat × List Nat)),
    p ∈ mtch r s → ∀ c ∈ p.2, ∀ x ∈ c.2, x ∈ s := by
  induction r with
  | eps =>
    intro s p hp
    simp only [mtch, List.mem_singleton] at hp
    subst hp
    simp
  | cls f =>
    intro s p hp
    cases s with
    | nil => cases hp
    | cons c rest =>
      simp only [mtch] at hp
      by_cases h : f c
      · rw [if_pos h] at hp
        simp only [List.mem_singleton] at hp
        subst hp
        simp
      · rw [if_neg h] at hp
        cases hp
  | seq a b iha ihb =>
    intro s p hp
    simp only [mtch] at hp
    rw [mem_catMap] at hp
    obtain ⟨q, hq, hp2⟩ := hp
    rw [List.mem_map] at hp2
    obtain ⟨q2, hq2, rfl⟩ := hp2
    intro c hc x hx
    simp only [List.mem_append] at hc
    rcases hc with hc | hc
    · exact iha s q hq c hc x hx
    · have hx1 : x ∈ q.1 := ihb q.1 q2 hq2 c hc x hx
      obtain ⟨k1, hk1⟩ := mtch_rem_drop a s q hq
      rw [hk1] at hx1
      exact List.drop_subset k1 s hx1
  | alt a b iha ihb =>
    intro s p hp
    simp only [mtch, List.mem_append] at hp
    rcases hp with hp | hp
    · exact iha s p hp
    · exact ihb s p hp
  | opt a iha =>
    intro s p hp
    simp only [mtch, List.mem_append, List.mem_singleton] at hp
    rcases hp with hp | hp
    · exact iha s p hp
    · subst hp
      simp
  | plus f =>
    intro s p hp
    simp only [mtch, List.mem_map] at hp
    obtain ⟨k, _, rfl⟩ := hp
    simp
  | plusLazy f =>
    intro s p hp
    simp only [mtch, List.mem_map] at hp
    obtain ⟨k, _, rfl⟩ := hp
    simp
  | grp i a iha =>
    intro s p hp
    simp only [mtch, List.mem_map] at hp
    obtain ⟨q, hq, rfl⟩ := hp
    intro c hc x hx
    simp only [List.mem_cons] at hc
    rcases hc with hc | hc
    · subst hc
      exact List.take_subset _ s hx
    · exact iha s q hq c hc x hx

/-- `re.search` only captures characters of the searched string. -/
theorem reSearch_caps_mem (r : RE) : ∀ (s : List Nat) (cs : List (Nat × List Nat)),
    reSearch r s = some cs → ∀ c ∈ cs, ∀ x ∈ c.2, x ∈ s := by
  intro s
  induction s with
  | nil =>
    intro cs h c hc x hx
    simp only [reSearch] at h
    cases hm : (mtch r []).head? with
    | none => rw [hm] at h; cases h
    | some p =>
      rw [hm] at h
      injection h with h
      rw [← h] at hc
      exact mtch_caps_mem r [] p (mem_of_head? hm) c hc x hx
  | cons a rest ih =>
    intro cs h c hc x hx
    simp only [reSearch] at h
    cases hm : (mtch r (a :: rest)).head? with
    | some p =>
      rw [hm] at h
      injection h with h
      rw [← h] at hc
      exact mtch_caps_mem r _ p (mem_of_head? hm) c hc x hx
    | none =>
      rw [hm] at h
      exact List.mem_cons_of_mem a (ih cs h c hc x hx)

/-- A matching pattern of a family only captures characters of the query. -/
theorem firstSearch_caps_mem (ps : List RE) (s : List Nat) (cs : List (Nat × List Nat))
    (h : firstSearch ps s = some cs) : ∀ c ∈ cs, ∀ x ∈ c.2, x ∈ s := by
  obtain ⟨p, _, hp⟩ := List.exists_of_findSome?_eq_some h
  exact reSearch_caps_mem p s cs hp

/-- `capGet` returns a pair of the capture list. -/
theorem capGet_mem : ∀ (cs : List (Nat × List Nat)) (i : Nat) (g : List Nat),
    capGet cs i = some g → (i, g) ∈ cs := by
  intro cs
  induction cs with
  | nil => intro i g h; cases h
  | cons c t ih =>
    intro i g h
    rcases c with ⟨j, w⟩
    simp only [capGet] at h
    by_cases hj : (j == i) = true
    · rw [if_pos hj] at h
      injection h with h
      have hj' : j = i := beq_iff_eq.mp hj
      subst hj'
      rw [← h]
      exact List.mem_cons_self _ _
    · rw [if_neg hj] at h
      exact List.mem_cons_of_mem _ (ih i g h)

/-- Lower-casing leaves no ASCII upper-case letter. -/
theorem pyLower_not_upper (l : List Nat) : ∀ x ∈ pyLower l, isUpperCode x = false := by
  intro x hx
  rw [pyLower, List.mem_map] at hx
  obtain ⟨y, _, rfl⟩ := hx
  simp only [lowerCode, isUpperCode]
  split
  · rename_i h
    simp only [Bool.and_eq_true, decide_eq_true_eq] at h
    simp only [Bool.and_eq_false_iff, decide_eq_false_iff_not]
    omega
  · rename_i h
    simp only [Bool.and_eq_true, decide_eq_true_eq, not_and, not_le] at h
    simp only [Bool.and_eq_false_iff, decide_eq_false_iff_not]
    omega

/-- The head surviving a `dropWhile` fails the predicate. -/
theorem dropWhile_head_not (f : Nat → Bool) :
    ∀ (l : List Nat) (x : Nat), (l.dropWhile f).head? = some x → f x = false := by
  intro l
  induction l with
  | nil => intro x h; cases h
  | cons a t ih =>
    intro x h
    rw [List.dropWhile_cons] at h
    by_cases ha : f a
    · rw [if_pos ha] at h
      exact ih x h
    · rw [if_neg ha] at h
      injection h with h
      rw [← h]
      simpa using ha

/-- `dropWhile` drops exactly the matched prefix. -/
theorem dropWhile_eq_drop_len (f : Nat → Bool) :
    ∀ l : List Nat, l.dropWhile f = l.drop (l.takeWhile f).length := by
  intro l
  induction l with
  | nil => rfl
  | cons a t ih =>
    by_cases h : f a
    · simp [List.dropWhile_cons, List.takeWhile_cons, h, ih]
    · simp [List.dropWhile_cons, List.takeWhile_cons, h]

/-- Stripping only keeps characters of the input. -/
theorem pyStrip_subset (l : List Nat) : ∀ x ∈ pyStrip l, x ∈ l := by
  intro x hx
  unfold pyStrip at hx
  rw [List.mem_reverse] at hx
  have h1 := (List.dropWhile_sublist (l := (l.dropWhile isWS).reverse) (p := isWS)).subset hx
  rw [List.mem_reverse] at h1
  exact (List.dropWhile_sublist (l := l) (p := isWS)).subset h1

/-- A stripped string has no leading whitespace. -/
theorem pyStrip_head_not_ws (l : List Nat) (x : Nat)
    (h : (pyStrip l).head? = some x) : isWS x = false := by
  unfold pyStrip at h
  rw [List.head?_reverse] at h
  obtain ⟨u, hu⟩ :=
    List.dropWhile_suffix (l := (l.dropWhile isWS).reverse) (p := isWS)
  have hne : (l.dropWhile isWS).reverse.dropWhile isWS ≠ [] := by
    intro e
    rw [e] at h
    cases h
  have h2 : ((l.dropWhile isWS).reverse).getLast? = some x := by
    rw [← hu, List.getLast?_append_of_ne_nil u hne]
    exact h
  rw [List.getLast?_reverse] at h2
  exact dropWhile_head_not isWS l x h2

/-- A stripped string has no trailing whitespace. -/
theorem pyStrip_getLast_not_ws (l : List Nat) (x : Nat)
    (h : (pyStrip l).getLast? = some x) : isWS x = false := by
  unfold pyStrip at h
  rw [List.getLast?_reverse] at h
  exact dropWhile_head_not isWS _ x h

/-- The remainder of the top-priority match of a greedy `\s+` tail cannot
begin with another matching character (greediness). -/
theorem plus_head_rem (f : Nat → Bool) (t : List Nat)
    (q : List Nat × List (Nat × List Nat))
    (h : (mtch (RE.plus f) t).head? = some q) :
    ∀ x, q.1.head? = some x → f x = false := by
  intro x hx
  simp only [mtch] at h
  cases hm : (t.takeWhile f).length with
  | zero =>
    rw [hm] at h
    cases h
  | succ m =>
    rw [hm] at h
    simp only [descRange, List.map_cons, List.head?_cons] at h
    injection h with h
    rw [← h] at hx
    have hd : t.drop (m + 1) = t.dropWhile f := by
      rw [dropWhile_eq_drop_len, hm]
    rw [hd] at hx
    exact dropWhile_head_not f t x hx

/-- For a pattern of the shape `a` followed by a greedy `\s+`, the remainder
of the top-priority match does not begin with a matching character. -/
theorem seq_plus_head_rem (a : RE) (f : Nat → Bool) (s : List Nat)
    (q : List Nat × List (Nat × List Nat))
    (h : (mtch (RE.seq a (RE.plus f)) s).head? = some q) :
    ∀ x, q.1.head? = some x → f x = false := by
  intro x hx
  simp only [mtch] at h
  obtain ⟨p0, _, hh⟩ := catMap_head _ q h
  rw [List.head?_map] at hh
  cases hm : (List.map (fun k => (List.drop k p0.1, ([] : List (Nat × List Nat))))
      (descRange (List.takeWhile f p0.1).length)).head? with
  | none =>
    rw [hm] at hh
    cases hh
  | some q2 =>
    rw [hm] at hh
    injection hh with hh
    have hq1 : q.1 = q2.1 := by rw [← hh]
    rw [hq1] at hx
    refine plus_head_rem f p0.1 q2 ?_ x hx
    simp only [mtch]
    exact hm

/-- `re.sub` of the anchored article pattern returns a suffix of its input. -/
theorem stripArticle_drop (p : List Nat) : ∃ k, stripArticle p = p.drop k := by
  unfold stripArticle
  cases hm : (mtch articleRE p).head? with
  | none => exact ⟨0, rfl⟩
  | some q => exact mtch_rem_drop articleRE p q (mem_of_head? hm)

/-- Removing the leading article cannot expose leading whitespace: the `\s+`
of the article pattern is greedy. -/
theorem stripArticle_head_not_ws (p : List Nat)
    (hp : ∀ y, p.head? = some y → isWS y = false) :
    ∀ x, (stripArticle p).head? = some x → isWS x = false := by
  intro x h
  unfold stripArticle at h
  cases hm : (mtch articleRE p).head? with
  | none =>
    rw [hm] at h
    exact hp x h
  | some q =>
    rw [hm] at h
    rw [show articleRE = RE.seq
      (RE.grp 1 (RE.alt (litCI "el") (RE.alt (litCI "la") (RE.alt (litCI "los")
        (RE.alt (litCI "las") (RE.alt (litCI "un") (RE.alt (litCI "una")
        (RE.alt (litCI "unos") (litCI "unas")))))))))
      (RE.plus isWS) from rfl] at hm
    exact seq_plus_head_rem _ isWS p q hm x h

/-- The last element of a non-empty `drop` is the last element of the list. -/
theorem getLast?_drop_of_ne_nil {α : Type _} :
    ∀ (l : List α) (k : Nat), l.drop k ≠ [] → (l.drop k).getLast? = l.getLast? := by
  intro l
  induction l with
  | nil => intro k h; simp at h
  | cons a t ih =>
    intro k h
    cases k with
    | zero => rfl
    | succ m =>
      simp only [List.drop_succ_cons] at h ⊢
      rw [ih m h]
      have ht : t ≠ [] := by
        intro e
        rw [e] at h
        simp at h
      cases t with
      | nil => exact absurd rfl ht
      | cons b u => rfl

/-- Removing the leading article preserves the absence of trailing
whitespace. -/
theorem stripArticle_getLast_not_ws (p : List Nat)
    (hp : ∀ y, p.getLast? = some y → isWS y = false) :
    ∀ x, (stripArticle p).getLast? = some x → isWS x = false := by
  intro x h
  obtain ⟨k, hk⟩ := stripArticle_drop p
  rw [hk] at h
  have hne : p.drop k ≠ [] := by
    intro e
    rw [e] at h
    cases h
  rw [getLast?_drop_of_ne_nil p k hne] at h
  exact hp x h

/-- Characters surviving the article removal come from the input. -/
theorem stripArticle_subset (p : List Nat) : ∀ x ∈ stripArticle p, x ∈ p := by
  intro x hx
  obtain ⟨k, hk⟩ := stripArticle_drop p
  rw [hk] at hx
  exact List.drop_subset k p hx

/-- A stripped capture over a clean alphabet is clean. -/
theorem pyStrip_clean (ql g : List Nat)
    (hql : ∀ x ∈ ql, isUpperCode x = false) (hg : ∀ x ∈ g, x ∈ ql) :
    (∀ x ∈ pyStrip g, isUpperCode x = false) ∧
    (∀ x, (pyStrip g).head? = some x → isWS x = false) ∧
    (∀ x, (pyStrip g).getLast? = some x → isWS x = false) :=
  ⟨fun x hx => hql x (hg x (pyStrip_subset g x hx)),
   fun x hx => pyStrip_head_not_ws g x hx,
   fun x hx => pyStrip_getLast_not_ws g x hx⟩

/-- A stripped, article-free capture over a clean alphabet is clean. -/
theorem stripArticle_clean (ql g : List Nat)
    (hql : ∀ x ∈ ql, isUpperCode x = false) (hg : ∀ x ∈ g, x ∈ ql) :
    (∀ x ∈ stripArticle (pyStrip g), isUpperCode x = false) ∧
    (∀ x, (stripArticle (pyStrip g)).head? = some x → isWS x = false) ∧
    (∀ x, (stripArticle (pyStrip g)).getLast? = some x → isWS x = false) :=
  ⟨fun x hx => hql x (hg x (pyStrip_subset g x (stripArticle_subset _ x hx))),
   stripArticle_head_not_ws (pyStrip g) (fun y hy => pyStrip_head_not_ws g y hy),
   stripArticle_getLast_not_ws (pyStrip g) (fun y hy => pyStrip_getLast_not_ws g y hy)⟩

/-- A captured group of the first matching pattern of a family draws its
characters from the query. -/
theorem firstSearch_group_chars (ps : List RE) (s : List Nat)
    (cs : List (Nat × List Nat)) (h : firstSearch ps s = some cs) (i : Nat)
    (g : List Nat) (hg : capGet cs i = some g) : ∀ x ∈ g, x ∈ s :=
  fun x hx => firstSearch_caps_mem ps s cs h (i, g) (capGet_mem cs i g hg) x hx

/-- Every textual parameter the extractor produces is a stripped (possibly
article-free) capture over the lower-cased query. -/
theorem extract_field_shape (q t : String) (v : List Nat)
    (hv : (extract_parameters q t).product1 = some v ∨
          (extract_parameters q t).product2 = some v ∨
          (extract_parameters q t).reference_product = some v ∨
          (extract_parameters q t).use_case = some v) :
    ∃ g, (∀ x ∈ g, x ∈ pyLower (codes q)) ∧
      (v = pyStrip g ∨ v = stripArticle (pyStrip g)) := by
  rcases hp : reSearch priceRE (pyLower (codes q)) with _ | csP <;>
    rcases hs : reSearch sizeRE (pyLower (codes q)) with _ | csS <;>
      simp only [extract_parameters, hp, hs] at hv <;> {
    by_cases h1 : t = "comparison"
    · rw [if_pos h1] at hv
      cases hf : firstSearch COMPARISON_PATTERNS (pyLower (codes q)) with
      | none => simp [hf] at hv
      | some cs =>
        simp only [hf, Option.map_eq_some'] at hv
        rcases hv with ⟨g, hg, hvg⟩ | ⟨g, hg, hvg⟩ | hv | hv
        · exact ⟨g, firstSearch_group_chars _ _ _ hf 1 g hg, Or.inl hvg.symm⟩
        · exact ⟨g, firstSearch_group_chars _ _ _ hf 2 g hg, Or.inl hvg.symm⟩
        · cases hv
        · cases hv
    · rw [if_neg h1] at hv
      by_cases h2 : t = "similarity" ∨ t = "price_comparison"
      · rw [if_pos h2] at hv
        cases hf : firstSearch
            (if t = "similarity" then SIMILARITY_PATTERNS else PRICE_PATTERNS)
            (pyLower (codes q)) with
        | none => simp [hf] at hv
        | some cs =>
          simp only [hf, Option.map_eq_some'] at hv
          rcases hv with hv | hv | ⟨g, hg, hvg⟩ | hv
          · cases hv
          · cases hv
          · exact ⟨g, firstSearch_group_chars _ _ _ hf 1 g hg, Or.inr hvg.symm⟩
          · cases hv
      · rw [if_neg h2] at hv
        by_cases h3 : t = "recommendation"
        · rw [if_pos h3] at hv
          cases hf : firstSearch RECOMMENDATION_PATTERNS (pyLower (codes q)) with
          | none => simp [hf] at hv
          | some cs =>
            simp only [hf, Option.map_eq_some'] at hv
            rcases hv with hv | hv | hv | ⟨g, hg, hvg⟩
            · cases hv
            · cases hv
            · cases hv
            · exact ⟨g, firstSearch_group_chars _ _ _ hf 1 g hg, Or.inl hvg.symm⟩
        · rw [if_neg h3] at hv
          simp at hv
  }

/-- Claim C10: every textual parameter the extractor produces (`product1`,
`product2`, `reference_product`, `use_case`) contains no ASCII upper-case
character and neither starts nor ends with whitespace — extraction always
operates on the lower-cased query and strips (and, for the reference product,
de-articles) the captured group. -/
theorem extract_parameters_text_params_clean (q t : String) (v : List Nat)
    (h : (extract_parameters q t).product1 = some v ∨
         (extract_parameters q t).product2 = some v ∨
         (extract_parameters q t).reference_product = some v ∨
         (extract_parameters q t).use_case = some v) :
    (∀ x ∈ v, isUpperCode x = false) ∧
    (∀ x, v.head? = some x → isWS x = false) ∧
    (∀ x, v.getLast? = some x → isWS x = false) := by
  obtain ⟨g, hg, hv | hv⟩ := extract_field_shape q t v h
  · subst hv
    exact pyStrip_clean _ g (pyLower_not_upper (codes q)) hg
  · subst hv
    exact stripArticle_clean _ g (pyLower_not_upper (codes q)) hg

/-- Claim C10 witness: `"similar a la pulsera"` yields the reference product
`"pulsera"` (codes below), which is clean in the claimed sense. -/
theorem extract_parameters_text_params_clean_witness :
    (extract_parameters "similar a la pulsera" "similarity").reference_product =
      some [112, 117, 108, 115, 101, 114, 97] ∧
    ((∀ x ∈ [112, 117, 108, 115, 101, 114, 97], isUpperCode x = false) ∧
     (∀ x, ([112, 117, 108, 115, 101, 114, 97] : List Nat).head? = some x →
        isWS x = false) ∧
     (∀ x, ([112, 117, 108, 115, 101, 114, 97] : List Nat).getLast? = some x →
        isWS x = false)) := by
  refine ⟨rfl, extract_parameters_text_params_clean "similar a la pulsera" "similarity"
    [112, 117, 108, 115, 101, 114, 97] (Or.inr (Or.inr (Or.inl rfl)))⟩
